import Mathlib

/-!
Verification of the cache-characteristics analyzer.

The repository empirically infers L1 cache parameters (line size, capacity,
associativity) from timing measurements.  This development shallowly embeds
the pure analysis logic of the four C++ sources:

* `src/cache_analyzer.cpp` — `get_median`, `create_random_chain`,
  `find_l1_cache_size`, `find_cache_associativity`;
* `src/unnamed/part_000` — `find_cache_line_size`, `is_power_of_two`,
  `verify_cache_consistency`;
* `src/unnamed/part_001` — `detect_cache_levels`, `build_cache_hierarchy`.

Modelling conventions:

* C++ `double` values are modelled as `ℚ` (the analysed threshold
  comparisons all involve gross, exactly representable constants, so exact
  rational arithmetic is faithful for the properties considered here).
* Hardware timing is external input: each timing-dependent routine is
  parameterised by the measured latency series (a `List ℚ`, or a
  `ℕ → ℕ → ℤ` measurement oracle for the 2-D hierarchy sweep), exactly as
  produced by the measurement loops the routine wraps.
* The standard-library RNG (`std::mt19937_64`) is modelled as an arbitrary
  stream `rng : ℕ → ℕ` of raw outputs; all theorems about the chain builder
  hold for every stream, hence for the concrete seeded Mersenne twister.
* `std::sort` is modelled by `List.insertionSort (· ≤ ·)` (any correct
  ascending sort; only the sorted result is observable).
* The C++ `exit(1)` path of `build_cache_hierarchy` is modelled with
  `Except String`, so a fatal abort and a normal return are distinguished
  in the result type.
-/

/-- Embedding of `get_median` (cache_analyzer.cpp:47-56).  The C++ function
receives the vector by reference and sorts it in place; the embedding
returns both the median value (first component) and the post-call state of
the vector (second component). -/
def get_median_full (values : List ℚ) : ℚ × List ℚ :=
  if values = [] then (0, values)
  else
    let sorted := values.insertionSort (· ≤ ·)
    let n := sorted.length
    if n % 2 = 1 then (sorted.getD (n / 2) 0, sorted)
    else ((sorted.getD (n / 2 - 1) 0 + sorted.getD (n / 2) 0) / 2, sorted)

/-- The value returned by `get_median` (cache_analyzer.cpp:47-56). -/
def get_median (values : List ℚ) : ℚ := (get_median_full values).1

/-- The first index `i` in `[start, start + fuel)` with `f i = true`:
embedding of the `for (i = ...; ...; ++i) { if (cond) { ...; break; } }`
detection loops shared by the probes. -/
def findFirstIdx (f : ℕ → Bool) : ℕ → ℕ → Option ℕ
  | _, 0 => none
  | start, fuel + 1 => if f start then some start else findFirstIdx f (start + 1) fuel

theorem findFirstIdx_eq_none (f : ℕ → Bool) (start fuel : ℕ)
    (h : ∀ i, start ≤ i → i < start + fuel → f i = false) :
    findFirstIdx f start fuel = none := by
  induction fuel generalizing start with
  | zero => rfl
  | succ fuel ih =>
    have hs : f start = false := h start le_rfl (by omega)
    rw [findFirstIdx, hs]
    simp only [Bool.false_eq_true, if_false]
    exact ih (start + 1) fun i h1 h2 => h i (by omega) (by omega)

theorem findFirstIdx_eq_some (f : ℕ → Bool) (start fuel i : ℕ)
    (h1 : start ≤ i) (h2 : i < start + fuel) (h3 : f i = true)
    (h4 : ∀ j, start ≤ j → j < i → f j = false) :
    findFirstIdx f start fuel = some i := by
  induction fuel generalizing start with
  | zero => omega
  | succ fuel ih =>
    rcases Nat.eq_or_lt_of_le h1 with heq | hlt
    · subst heq
      rw [findFirstIdx, h3]
      simp
    · have hs : f start = false := h4 start le_rfl hlt
      rw [findFirstIdx, hs]
      simp only [Bool.false_eq_true, if_false]
      exact ih (start + 1) hlt (by omega) fun j hj1 hj2 => h4 j (by omega) hj2

theorem findFirstIdx_some_bounds (f : ℕ → Bool) (start fuel i : ℕ)
    (h : findFirstIdx f start fuel = some i) : start ≤ i ∧ i < start + fuel := by
  induction fuel generalizing start with
  | zero => simp [findFirstIdx] at h
  | succ fuel ih =>
    rw [findFirstIdx] at h
    by_cases hf : f start = true
    · rw [if_pos hf] at h
      simp only [Option.some.injEq] at h
      omega
    · rw [if_neg hf] at h
      have := ih (start + 1) h
      omega

/-- One pass of the Fisher-Yates shuffle of `create_random_chain`
(cache_analyzer.cpp:77-94).  The C++ vector `indices` (initially the
identity, then swapped in place for `i = size-1` down to `1`) is modelled
as the permutation `position ↦ indices[position]` of `Fin n`: swapping the
entries at positions `i` and `j = rng() % (i+1)` composes the current
permutation with the transposition of `i` and `j`.  `fyPerm rng n k` is
the permutation after the loop has processed counters `n-1, …, k+1`
down to... precisely: after processing counters `k, k-1, …` is still
pending, i.e. it is the composition of the transpositions for counters
`1, …, k` applied in the source's (descending-counter) order; the final
shuffled `indices` is `fyPerm rng n (n-1)`.  The RNG output consumed at
counter `i` is modelled as `rng i`. -/
def fyPerm (rng : ℕ → ℕ) (n : ℕ) : ℕ → Equiv.Perm (Fin n)
  | 0 => Equiv.refl _
  | k + 1 =>
    if h : k + 1 < n then
      (fyPerm rng n k).trans
        (Equiv.swap ⟨k + 1, h⟩
          ⟨rng (k + 1) % (k + 2), Nat.lt_of_lt_of_le (Nat.mod_lt _ (Nat.succ_pos _)) h⟩)
    else fyPerm rng n k

/-- Embedding of the chain built by `create_random_chain`
(cache_analyzer.cpp:77-94) as its successor function on slot indices.
The C++ stores `array[indices[i]] = &array[indices[(i + 1) % size]]`, so
the pointer stored in `slot` points to slot `p ((p.symm slot + 1) % n)`
where `p` is the shuffled index permutation. -/
def create_random_chain (rng : ℕ → ℕ) (n : ℕ) (slot : Fin n) : Fin n :=
  let p := fyPerm rng n (n - 1)
  p ⟨(((p.symm slot) : ℕ) + 1) % n, Nat.mod_lt _ slot.pos⟩

theorem create_random_chain_iterate (rng : ℕ → ℕ) (n : ℕ) (s : Fin n) (k : ℕ) :
    (create_random_chain rng n)^[k] s =
      (fyPerm rng n (n - 1))
        ⟨((((fyPerm rng n (n - 1)).symm s) : ℕ) + k) % n, Nat.mod_lt _ s.pos⟩ := by
  induction k with
  | zero =>
    simp only [Function.iterate_zero, id_eq, Nat.add_zero]
    have : (⟨(((fyPerm rng n (n - 1)).symm s) : ℕ) % n, Nat.mod_lt _ s.pos⟩ : Fin n) =
        (fyPerm rng n (n - 1)).symm s := by
      apply Fin.ext
      exact Nat.mod_eq_of_lt ((fyPerm rng n (n - 1)).symm s).isLt
    rw [this, Equiv.apply_symm_apply]
  | succ k ih =>
    rw [Function.iterate_succ_apply', ih]
    unfold create_random_chain
    simp only [Equiv.symm_apply_apply]
    congr 1
    apply Fin.ext
    show ((((fyPerm rng n (n - 1)).symm s : ℕ) + k) % n + 1) % n =
      (((fyPerm rng n (n - 1)).symm s : ℕ) + (k + 1)) % n
    rw [Nat.mod_add_mod, Nat.add_assoc]

/-- Claim C1: for every element count `N ≥ 4` (and every RNG stream and
every start slot), the chain built by `create_random_chain` is a single
cycle over the `N` slots: the first `N` iterates from any start are
pairwise distinct (no slot revisited), every slot occurs among them (no
slot skipped), and the `N`-th step returns to the start. -/
theorem create_random_chain_single_cycle (rng : ℕ → ℕ) (n : ℕ) (hn : 4 ≤ n) (s : Fin n) :
    (∀ j k, j < n → k < n →
      (create_random_chain rng n)^[j] s = (create_random_chain rng n)^[k] s → j = k) ∧
    (∀ t : Fin n, ∃ k, k < n ∧ (create_random_chain rng n)^[k] s = t) ∧
    (create_random_chain rng n)^[n] s = s := by
  have hpos : 0 < n := by omega
  set p := fyPerm rng n (n - 1) with hp
  have key : ∀ j k, j < n → k < n →
      (create_random_chain rng n)^[j] s = (create_random_chain rng n)^[k] s → j = k := by
    intro j k hj hk heq
    rw [create_random_chain_iterate, create_random_chain_iterate] at heq
    have h2 := p.injective heq
    have h3 : (((p.symm s) : ℕ) + j) % n = (((p.symm s) : ℕ) + k) % n :=
      congrArg Fin.val h2
    have h4 : j % n = k % n := Nat.ModEq.add_left_cancel' _ h3
    rwa [Nat.mod_eq_of_lt hj, Nat.mod_eq_of_lt hk] at h4
  refine ⟨key, ?_, ?_⟩
  · intro t
    have hinj : Function.Injective (fun k : Fin n => (create_random_chain rng n)^[k] s) := by
      intro a b hab
      exact Fin.ext (key a b a.isLt b.isLt hab)
    have hsurj := Finite.surjective_of_injective hinj
    obtain ⟨k, hk⟩ := hsurj t
    exact ⟨k, k.isLt, hk⟩
  · rw [create_random_chain_iterate]
    have : ((((p.symm s) : ℕ) + n) % n) = ((p.symm s) : ℕ) := by
      rw [Nat.add_mod_right]
      exact Nat.mod_eq_of_lt (p.symm s).isLt
    have h5 : (⟨(((p.symm s) : ℕ) + n) % n, Nat.mod_lt _ s.pos⟩ : Fin n) = p.symm s :=
      Fin.ext this
    rw [h5, Equiv.apply_symm_apply]

/-- A concrete RNG stream (constant zero), used to instantiate theorems
that hold for every stream. -/
def zeroRng : ℕ → ℕ := fun _ => 0

/-- Witness for C1 at `n = 4`, the zero RNG stream and start slot `0`. -/
theorem create_random_chain_single_cycle_witness :
    (∀ j k, j < 4 → k < 4 →
      (create_random_chain zeroRng 4)^[j] (0 : Fin 4) =
        (create_random_chain zeroRng 4)^[k] (0 : Fin 4) → j = k) ∧
    (∀ t : Fin 4, ∃ k, k < 4 ∧ (create_random_chain zeroRng 4)^[k] (0 : Fin 4) = t) ∧
    (create_random_chain zeroRng 4)^[4] (0 : Fin 4) = (0 : Fin 4) :=
  create_random_chain_single_cycle zeroRng 4 (by norm_num) 0

/-- Claim C5: `get_median` is invariant under permutation of its input
(any sample ordering yields the same statistic), and on a sorted input it
returns the middle element (odd length) or the mean of the two middle
elements (even length) — hence, combined with the first part, it returns
the true median of any input.  (The claim's final clause — that the median
"never equals the mean-based reduction except where median and mean
coincide" — is a tautology and carries no separate content.) -/
theorem get_median_perm_invariant (xs ys : List ℚ) (hne : xs ≠ []) (hperm : xs.Perm ys) :
    get_median xs = get_median ys ∧
    (xs.Sorted (· ≤ ·) →
      get_median xs =
        if xs.length % 2 = 1 then xs.getD (xs.length / 2) 0
        else (xs.getD (xs.length / 2 - 1) 0 + xs.getD (xs.length / 2) 0) / 2) := by
  have hne' : ys ≠ [] := fun h => hne (List.Perm.eq_nil (h ▸ hperm))
  have hsort : xs.insertionSort (· ≤ ·) = ys.insertionSort (· ≤ ·) :=
    List.eq_of_perm_of_sorted
      ((List.perm_insertionSort _ xs).trans (hperm.trans (List.perm_insertionSort _ ys).symm))
      (List.sorted_insertionSort _ xs) (List.sorted_insertionSort _ ys)
  constructor
  · simp only [get_median, get_median_full, if_neg hne, if_neg hne', hsort]
  · intro hs
    have heq : xs.insertionSort (· ≤ ·) = xs := hs.insertionSort_eq
    simp only [get_median, get_median_full, if_neg hne, heq]
    split_ifs <;> rfl

/-- Witness for C5: two orderings of the same three samples. -/
theorem get_median_perm_invariant_witness :
    get_median [3, 1, 2] = get_median [2, 3, 1] :=
  (get_median_perm_invariant [3, 1, 2] [2, 3, 1] (by decide) (by decide)).1

/-- Claim C10: the vector state after a call to `get_median` (the second
component of `get_median_full`) holds exactly the same multiset of values
as the input, rearranged into non-decreasing order — so the caller's
original sample ordering is, in general, not preserved. -/
theorem get_median_full_sorts_argument (xs : List ℚ) :
    ((get_median_full xs).2).Perm xs ∧ ((get_median_full xs).2).Sorted (· ≤ ·) := by
  by_cases h : xs = []
  · subst h
    exact ⟨List.Perm.refl _, List.sorted_nil⟩
  · simp only [get_median_full, if_neg h]
    constructor
    · split_ifs <;> exact List.perm_insertionSort _ xs
    · split_ifs <;> exact List.sorted_insertionSort _ xs

/-- The size ladder (in KB) swept by `find_l1_cache_size`
(cache_analyzer.cpp:101). -/
def sizes_kb : List ℕ := [1, 2, 4, 8, 16, 32, 64, 128, 256, 512]

/-- Embedding of the detection phase of `find_l1_cache_size`
(cache_analyzer.cpp:97-141), parameterised by the per-size median access
times `ts` (one entry per entry of `sizes_kb`; the measurement loop that
produces them is hardware input).  The loop flags the first `i ≥ 1` with
`access_times[i] > access_times[i-1] * 1.5` and takes
`sizes_kb[i-1] * 1024`; if no index qualifies it substitutes the default
`32 * 1024`.  The second component is the low-confidence flag: `true`
exactly on the `detected_size == 0` branch, where the C++ prints
"Could not detect size, using default 32 KB". -/
def find_l1_cache_size_full (ts : List ℚ) : ℕ × Bool :=
  match findFirstIdx (fun i => decide (ts.getD i 0 > ts.getD (i - 1) 0 * (3 / 2))) 1
      (ts.length - 1) with
  | some i => (sizes_kb.getD (i - 1) 0 * 1024, false)
  | none => (32 * 1024, true)

/-- The size (in bytes) returned by `find_l1_cache_size`. -/
def find_l1_cache_size (ts : List ℚ) : ℕ := (find_l1_cache_size_full ts).1

/-- Claim C2 (amended): on the 10-point size sweep, `find_l1_cache_size`
flags the first index whose statistic exceeds the previous point by 50%
(factor 1.5 — not by the claimed 15-20%), returns the size prior to that
index as the detected capacity, and when no index qualifies returns the
documented default of 32 KB. -/
theorem find_l1_cache_size_characterization (ts : List ℚ) (hlen : ts.length = 10) :
    ((∀ i, 1 ≤ i → i < 10 → ¬ ts.getD i 0 > ts.getD (i - 1) 0 * (3 / 2)) →
      find_l1_cache_size ts = 32 * 1024) ∧
    (∀ i, 1 ≤ i → i < 10 → ts.getD i 0 > ts.getD (i - 1) 0 * (3 / 2) →
      (∀ j, 1 ≤ j → j < i → ¬ ts.getD j 0 > ts.getD (j - 1) 0 * (3 / 2)) →
      find_l1_cache_size ts = sizes_kb.getD (i - 1) 0 * 1024) := by
  constructor
  · intro h
    unfold find_l1_cache_size find_l1_cache_size_full
    rw [hlen, findFirstIdx_eq_none _ _ _ (fun i h1 h2 => decide_eq_false (h i h1 (by omega)))]
  · intro i h1 h2 hjump hfirst
    unfold find_l1_cache_size find_l1_cache_size_full
    rw [hlen, findFirstIdx_eq_some _ _ _ i h1 (by omega) (decide_eq_true hjump)
      (fun j hj1 hj2 => decide_eq_false (hfirst j hj1 hj2))]

/-- Witness for C2: a series jumping by a factor 2 right after the first
point is detected at index 1, and the size prior to it (1 KB) is
returned. -/
theorem find_l1_cache_size_characterization_witness :
    find_l1_cache_size [1, 2, 2, 2, 2, 2, 2, 2, 2, 2] = 1024 :=
  ((find_l1_cache_size_characterization [1, 2, 2, 2, 2, 2, 2, 2, 2, 2] rfl).2
      1 le_rfl (by norm_num) (by norm_num [List.getD])
      (fun j hj1 hj2 => absurd hj2 (by omega))).trans (by decide)

/-- Claim C2 counterexample: the series below rises by 30% after its first
point — which exceeds every threshold in the claimed 15-20% band, so under
the claim the sweep would flag index 1 and return the prior size
`sizes_kb[0] * 1024 = 1024` — yet the code (whose threshold is 50%) flags
nothing and returns the 32 KB default. -/
theorem find_l1_cache_size_threshold_counterexample :
    ([10, 13, 13, 13, 13, 13, 13, 13, 13, 13] : List ℚ).getD 1 0 >
      ([10, 13, 13, 13, 13, 13, 13, 13, 13, 13] : List ℚ).getD 0 0 * (6 / 5) ∧
    find_l1_cache_size [10, 13, 13, 13, 13, 13, 13, 13, 13, 13] = 32 * 1024 ∧
    (32 * 1024 : ℕ) ≠ sizes_kb.getD 0 0 * 1024 := by
  refine ⟨by norm_num [List.getD], ?_, by decide⟩
  norm_num [find_l1_cache_size, find_l1_cache_size_full, findFirstIdx, List.getD]

/-- Baseline used by `find_cache_associativity` (cache_analyzer.cpp:194-197):
the median of the first `min(3, n)` trials. -/
def assocBaseline (ts : List ℚ) : ℚ := get_median (ts.take (min 3 ts.length))

/-- The strong acceptance test of `find_cache_associativity`
(cache_analyzer.cpp:201): ratio over baseline above 1.5 and absolute
margin of 2 ns over the baseline. -/
abbrev strongJump (ts : List ℚ) (i : ℕ) : Prop :=
  ts.getD i 0 > assocBaseline ts * (3 / 2) ∧ ts.getD i 0 > assocBaseline ts + 2

/-- The relaxed fallback acceptance test of `find_cache_associativity`
(cache_analyzer.cpp:209): ratio over baseline above 1.35, no absolute
floor. -/
abbrev weakJump (ts : List ℚ) (i : ℕ) : Prop :=
  ts.getD i 0 > assocBaseline ts * (27 / 20)

/-- Embedding of the detection phase of `find_cache_associativity`
(cache_analyzer.cpp:144-217), parameterised by the per-conflict-count
median access times `ts` (the C++ always produces 16 entries, one per
conflict count 1..16; `access_times[i]` belongs to conflict count
`i + 1`).  A first pass returns the first index passing the strong test;
failing that, a second pass returns the first index passing the relaxed
test; failing both, the documented default of 8 ways is returned. -/
def find_cache_associativity (ts : List ℚ) : ℕ :=
  match findFirstIdx (fun i => decide (strongJump ts i)) 1 (ts.length - 1) with
  | some i => i
  | none =>
    match findFirstIdx (fun i => decide (weakJump ts i)) 1 (ts.length - 1) with
    | some i => i
    | none => 8

/-- Claim C3 (amended): `find_cache_associativity` computes the baseline
as the median of the first `min(3, n)` trials and returns the first index
whose latency exceeds the baseline by the 1.5 ratio AND clears the
absolute floor `baseline + 2`; if no index passes that test, it returns
the first index exceeding the baseline by the relaxed 1.35 ratio alone;
when no index qualifies under either test it returns the documented
default of 8 ways.  No check of the following trial (persistence) is
performed. -/
theorem find_cache_associativity_characterization (ts : List ℚ) :
    (∀ i, 1 ≤ i → i < ts.length → strongJump ts i →
      (∀ j, 1 ≤ j → j < i → ¬ strongJump ts j) →
      find_cache_associativity ts = i) ∧
    ((∀ j, 1 ≤ j → j < ts.length → ¬ strongJump ts j) →
      ∀ i, 1 ≤ i → i < ts.length → weakJump ts i →
      (∀ j, 1 ≤ j → j < i → ¬ weakJump ts j) →
      find_cache_associativity ts = i) ∧
    ((∀ j, 1 ≤ j → j < ts.length → ¬ strongJump ts j) →
      (∀ j, 1 ≤ j → j < ts.length → ¬ weakJump ts j) →
      find_cache_associativity ts = 8) := by
  refine ⟨?_, ?_, ?_⟩
  · intro i h1 h2 hstrong hfirst
    unfold find_cache_associativity
    rw [findFirstIdx_eq_some _ _ _ i h1 (by omega) (decide_eq_true hstrong)
      (fun j hj1 hj2 => decide_eq_false (hfirst j hj1 hj2))]
  · intro hnostrong i h1 h2 hweak hfirst
    unfold find_cache_associativity
    rw [findFirstIdx_eq_none _ _ _ (fun j hj1 hj2 => decide_eq_false (hnostrong j hj1 (by omega))),
      findFirstIdx_eq_some _ _ _ i h1 (by omega) (decide_eq_true hweak)
        (fun j hj1 hj2 => decide_eq_false (hfirst j hj1 hj2))]
  · intro hns hnw
    unfold find_cache_associativity
    rw [findFirstIdx_eq_none _ _ _ (fun j hj1 hj2 => decide_eq_false (hns j hj1 (by omega))),
      findFirstIdx_eq_none _ _ _ (fun j hj1 hj2 => decide_eq_false (hnw j hj1 (by omega)))]

/-- Witness for C3: baseline is 1 (median of the three leading 1 ns
trials); the series jumps to 10 ns at index 3 and stays there, so index 3
passes the strong test and is returned. -/
theorem find_cache_associativity_characterization_witness :
    find_cache_associativity [1, 1, 1, 10, 10, 10, 10, 10, 10, 10, 10, 10, 10, 10, 10, 10] = 3 :=
  (find_cache_associativity_characterization
      [1, 1, 1, 10, 10, 10, 10, 10, 10, 10, 10, 10, 10, 10, 10, 10]).1 3
    (by norm_num) (by norm_num)
    (by norm_num [strongJump, assocBaseline, get_median, get_median_full, List.take,
      List.insertionSort, List.orderedInsert, List.getD, List.cons_ne_nil])
    (by
      intro j hj1 hj2
      interval_cases j <;>
        norm_num [strongJump, assocBaseline, get_median, get_median_full, List.take,
          List.insertionSort, List.orderedInsert, List.getD, List.cons_ne_nil])

/-- Claim C3 counterexample: on the series below the code accepts index 3
(a strong jump to 10 ns) even though the very next trial regresses all the
way back to the baseline — the claimed persistence requirement ("the
following trial does not regress sharply toward baseline") is not
implemented; under the claim no index would qualify and the default 8
would be returned, but the code returns 3. -/
theorem find_cache_associativity_persistence_counterexample :
    find_cache_associativity [1, 1, 1, 10, 1, 1, 1, 1, 1, 1, 1, 1, 1, 1, 1, 1] = 3 ∧
    List.getD [1, 1, 1, 10, 1, 1, 1, 1, 1, 1, 1, 1, 1, 1, 1, 1] 4 (0 : ℚ) =
      assocBaseline [1, 1, 1, 10, 1, 1, 1, 1, 1, 1, 1, 1, 1, 1, 1, 1] ∧
    (3 : ℕ) ≠ 8 := by
  refine ⟨?_, ?_, by norm_num⟩
  · unfold find_cache_associativity
    rw [findFirstIdx_eq_some _ _ _ 3 (by norm_num) (by norm_num)
      (decide_eq_true (by norm_num [strongJump, assocBaseline, get_median, get_median_full,
        List.take, List.insertionSort, List.orderedInsert, List.getD, List.cons_ne_nil]))
      (fun j hj1 hj2 => decide_eq_false (by
        interval_cases j <;>
          norm_num [strongJump, assocBaseline, get_median, get_median_full, List.take,
            List.insertionSort, List.orderedInsert, List.getD, List.cons_ne_nil]))]
  · norm_num [assocBaseline, get_median, get_median_full, List.take,
      List.insertionSort, List.orderedInsert, List.getD, List.cons_ne_nil]

/-- Claim C9: for every latency series the probe can produce (it always
measures 16 trials, one per conflict count 1..16), the value of
`find_cache_associativity` lies between 1 and 15 inclusive: a detected
jump index is at most 15 and the fallback default is 8, so the maximum
swept conflict count of 16 ways is never reported. -/
theorem find_cache_associativity_range (ts : List ℚ) (hlen : ts.length = 16) :
    1 ≤ find_cache_associativity ts ∧ find_cache_associativity ts ≤ 15 ∧
    find_cache_associativity ts ≠ 16 := by
  cases h1 : findFirstIdx (fun i => decide (strongJump ts i)) 1 (ts.length - 1) with
  | some i =>
    have hv : find_cache_associativity ts = i := by
      unfold find_cache_associativity
      rw [h1]
    have hb := findFirstIdx_some_bounds _ _ _ _ h1
    rw [hlen] at hb
    rw [hv]
    exact ⟨hb.1, by omega, by omega⟩
  | none =>
    cases h2 : findFirstIdx (fun i => decide (weakJump ts i)) 1 (ts.length - 1) with
    | some i =>
      have hv : find_cache_associativity ts = i := by
        unfold find_cache_associativity
        rw [h1, h2]
      have hb := findFirstIdx_some_bounds _ _ _ _ h2
      rw [hlen] at hb
      rw [hv]
      exact ⟨hb.1, by omega, by omega⟩
    | none =>
      have hv : find_cache_associativity ts = 8 := by
        unfold find_cache_associativity
        rw [h1, h2]
      rw [hv]
      norm_num

/-- Witness for C9 on a flat 16-trial series (the default 8 is returned,
which lies in the range). -/
theorem find_cache_associativity_range_witness :
    1 ≤ find_cache_associativity [1, 1, 1, 1, 1, 1, 1, 1, 1, 1, 1, 1, 1, 1, 1, 1] ∧
    find_cache_associativity [1, 1, 1, 1, 1, 1, 1, 1, 1, 1, 1, 1, 1, 1, 1, 1] ≤ 15 ∧
    find_cache_associativity [1, 1, 1, 1, 1, 1, 1, 1, 1, 1, 1, 1, 1, 1, 1, 1] ≠ 16 :=
  find_cache_associativity_range [1, 1, 1, 1, 1, 1, 1, 1, 1, 1, 1, 1, 1, 1, 1, 1] rfl

/-- The stride ladder (bytes) swept by `find_cache_line_size`
(src/unnamed/part_000:96). -/
def test_strides : List ℕ := [1, 2, 4, 8, 16, 32, 64, 128, 256]

/-- Embedding of the detection phase of `find_cache_line_size`
(src/unnamed/part_000:82-124), parameterised by the per-stride average
access times `ts` (one entry per entry of `test_strides`).  The loop
flags the first index whose time exceeds the previous by 30% and returns
the stride at that index; when no index qualifies the function returns
its default value `-1`. -/
def find_cache_line_size (ts : List ℚ) : ℤ :=
  match findFirstIdx (fun i => decide (ts.getD i 0 > ts.getD (i - 1) 0 * (13 / 10))) 1
      (ts.length - 1) with
  | some i => (test_strides.getD i 0 : ℤ)
  | none => -1

/-- Claim C6: when a sweep finds no qualifying jump, no probe fails the
run — each returns its documented fallback: the capacity probe yields
32 KB together with a raised low-confidence flag (the modelled branch on
which the C++ prints its could-not-detect message), the stride-scan line
probe yields its default value -1, and the associativity probe yields its
documented default of 8 ways.  All three detection functions are total:
only resource acquisition (modelled outside these functions) can unwind
the run. -/
theorem inconclusive_probes_degrade_to_defaults (cs ls ws : List ℚ)
    (hcs : ∀ i, 1 ≤ i → i < cs.length → ¬ cs.getD i 0 > cs.getD (i - 1) 0 * (3 / 2))
    (hls : ∀ i, 1 ≤ i → i < ls.length → ¬ ls.getD i 0 > ls.getD (i - 1) 0 * (13 / 10))
    (hws : ∀ i, 1 ≤ i → i < ws.length → ¬ strongJump ws i ∧ ¬ weakJump ws i) :
    find_l1_cache_size_full cs = (32 * 1024, true) ∧
    find_cache_line_size ls = -1 ∧
    find_cache_associativity ws = 8 := by
  refine ⟨?_, ?_, ?_⟩
  · unfold find_l1_cache_size_full
    rw [findFirstIdx_eq_none _ _ _ (fun i h1 h2 => decide_eq_false (hcs i h1 (by omega)))]
  · unfold find_cache_line_size
    rw [findFirstIdx_eq_none _ _ _ (fun i h1 h2 => decide_eq_false (hls i h1 (by omega)))]
  · unfold find_cache_associativity
    rw [findFirstIdx_eq_none _ _ _ (fun i h1 h2 => decide_eq_false (hws i h1 (by omega)).1),
      findFirstIdx_eq_none _ _ _ (fun i h1 h2 => decide_eq_false (hws i h1 (by omega)).2)]

/-- Witness for C6 on flat two-point series for all three probes. -/
theorem inconclusive_probes_degrade_to_defaults_witness :
    find_l1_cache_size_full [5, 5] = (32 * 1024, true) ∧
    find_cache_line_size [5, 5] = -1 ∧
    find_cache_associativity [5, 5] = 8 :=
  inconclusive_probes_degrade_to_defaults [5, 5] [5, 5] [5, 5]
    (by
      intro i h1 h2
      have h2' : i < 2 := by simpa using h2
      interval_cases i
      norm_num [List.getD])
    (by
      intro i h1 h2
      have h2' : i < 2 := by simpa using h2
      interval_cases i
      norm_num [List.getD])
    (by
      intro i h1 h2
      have h2' : i < 2 := by simpa using h2
      interval_cases i
      constructor <;>
        norm_num [strongJump, weakJump, assocBaseline, get_median, get_median_full, List.take,
          List.insertionSort, List.orderedInsert, List.getD, List.cons_ne_nil])

/-- Embedding of `is_power_of_two` (src/unnamed/part_000:232-234):
`(n > 0) && ((n & (n - 1)) == 0)`.  When the guard passes, `n` is
positive, so `n` and `n - 1` are nonnegative and the C `int` bitwise AND
coincides with the bitwise AND of the corresponding naturals. -/
def is_power_of_two (n : ℤ) : Bool :=
  decide (n > 0) && decide ((n.toNat &&& (n - 1).toNat) = 0)

/-- The diagnostic while-loop of `verify_cache_consistency`
(src/unnamed/part_000:301-304): starting from 1, double `s` while
`s * 2 ≤ m`, producing the largest power of two not exceeding `m` (or 1
when `m < 2`).  The loop is fuel-bounded; 64 doublings cover every value
a C `int` can hold. -/
def growPow (m : ℤ) : ℕ → ℤ → ℤ
  | 0, s => s
  | fuel + 1, s => if s * 2 ≤ m then growPow m fuel (s * 2) else s

/-- The rational set count of `verify_cache_consistency`
(src/unnamed/part_000:259): `cache_size / (cache_line_size * associativity)`
computed in `double`, modelled in ℚ. -/
def verify_sets (cache_size cache_line_size associativity : ℤ) : ℚ :=
  (cache_size : ℚ) / ((cache_line_size : ℚ) * (associativity : ℚ))

/-- The rounded set count of `verify_cache_consistency`
(src/unnamed/part_000:266): `static_cast<int>(sets + 0.5)`, which
truncates toward zero — equal to the floor for the nonnegative values
arising here. -/
def verify_actual_sets (cache_size cache_line_size associativity : ℤ) : ℤ :=
  ⌊verify_sets cache_size cache_line_size associativity + 1 / 2⌋

/-- Everything `verify_cache_consistency` (src/unnamed/part_000:237-322)
computes and prints.  The C++ function returns `void` and takes its three
parameters by value, so the detected values are never overwritten; the
report collects the printed diagnostics. -/
structure ConsistencyReport where
  size_ok : Bool
  line_size_ok : Bool
  assoc_ok : Bool
  sets : ℚ
  actual_sets : ℤ
  sets_ok : Bool
  index_bits : ℤ
  suggested_sets : ℤ
  suggested_size : ℤ
  suggested_assoc : ℤ
  calculated_size : ℤ
  size_formula_ok : Bool

/-- Embedding of `verify_cache_consistency` (src/unnamed/part_000:237-322).
`sets_ok` holds when the set count is within 0.01 of an integer and that
integer is a power of two; on failure the C++ prints the suggestion block
(`suggested_sets`, `suggested_size`, `suggested_assoc`).  `index_bits` is
printed only on success; `-1` stands for "not printed".  All division
operands relevant to the analysed inputs are positive, where the C and
Lean integer-division conventions agree. -/
def verify_cache_consistency (cache_size cache_line_size associativity : ℤ) :
    ConsistencyReport :=
  let sets := verify_sets cache_size cache_line_size associativity
  let actual_sets := verify_actual_sets cache_size cache_line_size associativity
  let sets_ok := decide (|sets - (actual_sets : ℚ)| < 1 / 100) && is_power_of_two actual_sets
  let suggested_sets := growPow actual_sets 64 1
  { size_ok := is_power_of_two cache_size
    line_size_ok := is_power_of_two cache_line_size
    assoc_ok := is_power_of_two associativity || decide (associativity = 1)
    sets := sets
    actual_sets := actual_sets
    sets_ok := sets_ok
    index_bits := if sets_ok then (actual_sets.toNat.log2 : ℤ) else -1
    suggested_sets := suggested_sets
    suggested_size := suggested_sets * cache_line_size * associativity
    suggested_assoc := cache_size / (cache_line_size * suggested_sets)
    calculated_size := actual_sets * cache_line_size * associativity
    size_formula_ok := decide (actual_sets * cache_line_size * associativity = cache_size) }

theorem verify_sets_50000_64_7 : verify_sets 50000 64 7 = 3125 / 28 := by
  norm_num [verify_sets]

theorem verify_actual_sets_50000_64_7 : verify_actual_sets 50000 64 7 = 112 := by
  unfold verify_actual_sets
  rw [verify_sets_50000_64_7, Int.floor_eq_iff]
  norm_num

/-- Claim C4 (amended): for the inconsistent triple capacity=50000,
line_size=64, associativity=7 the consistency verifier fails (the
computed set count 3125/28 is not within the 0.01 tolerance of its
rounding 112, so it is not an integral power of two), and its report
carries the largest power of two not exceeding the rounded set count —
64, which is itself a power of two — together with the suggested
corrected size 64·64·7 = 28672 bytes and associativity
50000/(64·64) = 12, while the detected input values are never
overwritten (the verifier takes them by value and returns only the
report). -/
theorem verify_cache_consistency_inconsistent_triple :
    (verify_cache_consistency 50000 64 7).sets_ok = false ∧
    (verify_cache_consistency 50000 64 7).suggested_sets = 64 ∧
    is_power_of_two 64 = true ∧
    (verify_cache_consistency 50000 64 7).suggested_size = 28672 ∧
    (verify_cache_consistency 50000 64 7).suggested_assoc = 12 := by
  refine ⟨?_, ?_, by decide, ?_, ?_⟩
  · show (decide (|verify_sets 50000 64 7 - ((verify_actual_sets 50000 64 7 : ℤ) : ℚ)| < 1 / 100)
      && is_power_of_two (verify_actual_sets 50000 64 7)) = false
    have hP : ¬ (|verify_sets 50000 64 7 - ((verify_actual_sets 50000 64 7 : ℤ) : ℚ)|
        < 1 / 100) := by
      rw [verify_actual_sets_50000_64_7, verify_sets_50000_64_7, abs_sub_lt_iff]
      norm_num
    rw [decide_eq_false hP, Bool.false_and]
  · show growPow (verify_actual_sets 50000 64 7) 64 1 = 64
    rw [verify_actual_sets_50000_64_7]
    decide
  · show growPow (verify_actual_sets 50000 64 7) 64 1 * 64 * 7 = 28672
    rw [verify_actual_sets_50000_64_7]
    decide
  · show (50000 : ℤ) / (64 * growPow (verify_actual_sets 50000 64 7) 64 1) = 12
    rw [verify_actual_sets_50000_64_7]
    decide

/-- Claim C4 counterexample: at (50000, 64, 7) the reported suggestion is
64, yet 128 is a strictly nearer power of two to the computed set count
3125/28 ≈ 111.6 — the code computes the floor power of two, not the
nearest one stated by the claim. -/
theorem verify_cache_consistency_nearest_counterexample :
    (verify_cache_consistency 50000 64 7).suggested_sets = 64 ∧
    is_power_of_two 128 = true ∧
    |(128 : ℚ) - (verify_cache_consistency 50000 64 7).sets| <
      |(64 : ℚ) - (verify_cache_consistency 50000 64 7).sets| := by
  refine ⟨?_, by decide, ?_⟩
  · show growPow (verify_actual_sets 50000 64 7) 64 1 = 64
    rw [verify_actual_sets_50000_64_7]
    decide
  · show |(128 : ℚ) - verify_sets 50000 64 7| < |(64 : ℚ) - verify_sets 50000 64 7|
    rw [verify_sets_50000_64_7,
      abs_of_nonneg (by norm_num : (0 : ℚ) ≤ 128 - 3125 / 28),
      abs_of_nonpos (by norm_num : (64 : ℚ) - 3125 / 28 ≤ 0)]
    norm_num

/-- One stride's inner associativity sweep of `detect_cache_levels`
(src/unnamed/part_001:66-82): starting from `prev = measure H 1`, for
`S = 2..32` (MAX_ASSOC = 32) the index `S - 1` is flagged whenever
`(curr - prev) * 10 > curr`, with `prev := curr` threaded through.
`measure H S` abstracts the hardware latency `measure_latency(data, H, S)`
in nanoseconds. -/
def detectJumpSet (measure : ℕ → ℕ → ℤ) (H : ℕ) : Finset ℕ :=
  ((List.range' 2 31).foldl
    (fun st S =>
      let curr := measure H S
      (curr, if (curr - st.1) * 10 > curr then insert (S - 1) st.2 else st.2))
    (measure H 1, (∅ : Finset ℕ))).2

/-- The `same_jump` test of `detect_cache_levels`
(src/unnamed/part_001:88-95): vacuously true when no jump-set has been
collected yet, otherwise mutual containment — i.e. equality — with the
most recent jump-set. -/
def sameJump (jumps : List (Finset ℕ)) (nj : Finset ℕ) : Bool :=
  match jumps with
  | [] => true
  | _ :: _ => decide (jumps.getLast? = some nj)

/-- The stride-doubling loop of `detect_cache_levels`
(src/unnamed/part_001:60-105): `H` starts at `MAX_ASSOC = 32` and doubles
while `H < MAX_MEMORY / MAX_ASSOC = 8388608`; the loop breaks early when
the current jump-set equals the previous one AND `H >= 512 * 1024` (on
break the current jump-set is not appended).  The result carries the
collected jump-sets, the final `H`, and whether the early break was
taken.  The C++ `for` loop carries no fuel; the fuel argument here is a
hard iteration bound, and `detectLevelsGo_fuel_irrelevant` proves that
every fuel ≥ 18 yields the same result — the loop always terminates
within 18 iterations. -/
def detectLevelsGo (measure : ℕ → ℕ → ℤ) :
    ℕ → ℕ → List (Finset ℕ) → List (Finset ℕ) × ℕ × Bool
  | 0, H, jumps => (jumps, H, false)
  | fuel + 1, H, jumps =>
    if H < 8388608 then
      if sameJump jumps (detectJumpSet measure H) && decide (512 * 1024 ≤ H) then
        (jumps, H, true)
      else detectLevelsGo measure fuel (H * 2) (jumps ++ [detectJumpSet measure H])
    else (jumps, H, false)

/-- Embedding of `detect_cache_levels` (src/unnamed/part_001:60-105). -/
def detect_cache_levels (measure : ℕ → ℕ → ℤ) : List (Finset ℕ) × ℕ × Bool :=
  detectLevelsGo measure 18 32 []

theorem detectLevelsGo_fuel_irrelevant (measure : ℕ → ℕ → ℤ) :
    ∀ f₁ f₂ H jumps, 8388608 ≤ H * 2 ^ f₁ → 8388608 ≤ H * 2 ^ f₂ →
      detectLevelsGo measure f₁ H jumps = detectLevelsGo measure f₂ H jumps := by
  intro f₁
  induction f₁ with
  | zero =>
    intro f₂ H jumps h1 h2
    have hH : 8388608 ≤ H := by simpa using h1
    cases f₂ with
    | zero => rfl
    | succ f₂ =>
      rw [detectLevelsGo, detectLevelsGo, if_neg (by omega)]
  | succ f₁ ih =>
    intro f₂ H jumps h1 h2
    cases f₂ with
    | zero =>
      have hH : 8388608 ≤ H := by simpa using h2
      rw [detectLevelsGo, detectLevelsGo, if_neg (by omega)]
    | succ f₂ =>
      by_cases hH : H < 8388608
      · rw [detectLevelsGo, detectLevelsGo, if_pos hH, if_pos hH]
        by_cases hb : (sameJump jumps (detectJumpSet measure H) &&
            decide (512 * 1024 ≤ H)) = true
        · rw [if_pos hb, if_pos hb]
        · rw [if_neg hb, if_neg hb]
          have e1 : H * 2 * 2 ^ f₁ = H * 2 ^ (f₁ + 1) := by ring
          have e2 : H * 2 * 2 ^ f₂ = H * 2 ^ (f₂ + 1) := by ring
          exact ih f₂ (H * 2) (jumps ++ [detectJumpSet measure H]) (e1 ▸ h1) (e2 ▸ h2)
      · rw [detectLevelsGo, detectLevelsGo, if_neg hH, if_neg hH]

theorem detectLevelsGo_early_stop (measure : ℕ → ℕ → ℤ) :
    ∀ fuel H jumps, (jumps = [] → H < 512 * 1024) →
      (detectLevelsGo measure fuel H jumps).2.2 = true →
      512 * 1024 ≤ (detectLevelsGo measure fuel H jumps).2.1 ∧
      (detectLevelsGo measure fuel H jumps).1.getLast? =
        some (detectJumpSet measure (detectLevelsGo measure fuel H jumps).2.1) := by
  intro fuel
  induction fuel with
  | zero =>
    intro H jumps hinv hearly
    simp [detectLevelsGo] at hearly
  | succ fuel ih =>
    intro H jumps hinv hearly
    rw [detectLevelsGo] at hearly ⊢
    by_cases hH : H < 8388608
    · rw [if_pos hH] at hearly ⊢
      by_cases hb : (sameJump jumps (detectJumpSet measure H) &&
          decide (512 * 1024 ≤ H)) = true
      · rw [if_pos hb] at hearly ⊢
        have hb' := hb
        simp only [Bool.and_eq_true, decide_eq_true_eq] at hb'
        obtain ⟨hsame, hge⟩ := hb'
        refine ⟨hge, ?_⟩
        cases jumps with
        | nil => exact absurd (hinv rfl) (by omega)
        | cons a l =>
          simpa [sameJump] using hsame
      · rw [if_neg hb] at hearly ⊢
        exact ih (H * 2) (jumps ++ [detectJumpSet measure H])
          (fun hc => absurd hc (by simp)) hearly
    · rw [if_neg hH] at hearly ⊢
      simp at hearly

/-- Claim C7 (amended): the joint stride-by-associativity sweep of the
hierarchy reconstructor terminates for every measurement oracle — the
stride doublings are bounded by region size / max associativity
(32 · 2^18 = 8388608 = 256 MB / 32, so 18 iterations always suffice and
every fuel bound of at least 18 produces the identical result) — and the
sweep stops early only when the current stride's jump-set equals the
previous one AND the stride has reached 512 KB.  (The claim's "stops
early exactly when two consecutive strides yield an unchanged jump-set"
omits the 512 KB gate; see the counterexample.) -/
theorem detect_cache_levels_terminates (measure : ℕ → ℕ → ℤ) (f₁ f₂ : ℕ)
    (h₁ : 18 ≤ f₁) (h₂ : 18 ≤ f₂) :
    detectLevelsGo measure f₁ 32 [] = detectLevelsGo measure f₂ 32 [] ∧
    ((detect_cache_levels measure).2.2 = true →
      512 * 1024 ≤ (detect_cache_levels measure).2.1 ∧
      (detect_cache_levels measure).1.getLast? =
        some (detectJumpSet measure (detect_cache_levels measure).2.1)) := by
  constructor
  · apply detectLevelsGo_fuel_irrelevant
    · calc (8388608 : ℕ) = 32 * 2 ^ 18 := by norm_num
        _ ≤ 32 * 2 ^ f₁ :=
          Nat.mul_le_mul_left _ (Nat.pow_le_pow_right (by norm_num) h₁)
    · calc (8388608 : ℕ) = 32 * 2 ^ 18 := by norm_num
        _ ≤ 32 * 2 ^ f₂ :=
          Nat.mul_le_mul_left _ (Nat.pow_le_pow_right (by norm_num) h₂)
  · exact detectLevelsGo_early_stop measure 18 32 [] (fun _ => by norm_num)

/-- A constant measurement oracle: every latency reads as 100 ns. -/
def constMeasure : ℕ → ℕ → ℤ := fun _ _ => 100

/-- Witness for C7 at fuel bounds 18 and 19 under the constant oracle. -/
theorem detect_cache_levels_terminates_witness :
    detectLevelsGo constMeasure 18 32 [] = detectLevelsGo constMeasure 19 32 [] :=
  (detect_cache_levels_terminates constMeasure 18 19 le_rfl (by norm_num)).1

/-- Claim C7 counterexample: under the constant latency oracle every
stride's jump-set is empty, so already the first two strides
(H = 32 and H = 64) yield an unchanged jump-set — under the claim's
"stops early exactly when two consecutive stride values yield an
unchanged jump-set" the sweep would stop at H = 64 — yet the code keeps
sweeping until H = 524288, the first stride at or beyond its additional
512 KB gate, having collected 14 jump-sets. -/
theorem detect_cache_levels_stop_counterexample :
    detectJumpSet constMeasure 32 = detectJumpSet constMeasure 64 ∧
    (detect_cache_levels constMeasure).2.1 = 524288 ∧
    (detect_cache_levels constMeasure).2.2 = true ∧
    (detect_cache_levels constMeasure).1.length = 14 ∧
    (524288 : ℕ) ≠ 64 := by
  exact ⟨by decide, by decide, by decide, by decide, by norm_num⟩

/-- One step of the hierarchy-reconstruction walk of
`build_cache_hierarchy` (src/unnamed/part_001:113-125): for each `s` in
`active` missing from the current jump-set (iterated in ascending order,
as the C++ `std::set` does) a level `(H * s, s)` is appended; those `s`
are erased from `active`; `H` halves.  `rest` is the tail of the
jump-sets walked from the last index down to the first. -/
def hierarchyWalk : ℕ → Finset ℕ → List (Finset ℕ) → List (ℕ × ℕ) → List (ℕ × ℕ)
  | _, _, [], caches => caches
  | H, active, js :: rest, caches =>
    hierarchyWalk (H / 2) (active.filter (fun s => s ∈ js)) rest
      (caches ++ ((active.filter (fun s => s ∉ js)).sort (· ≤ ·)).map (fun s => (H * s, s)))

/-- The lexicographic order `std::sort` uses on `pair<int,int>`
(src/unnamed/part_001:132). -/
def pairLe (a b : ℕ × ℕ) : Prop :=
  a.1 < b.1 ∨ (a.1 = b.1 ∧ a.2 ≤ b.2)

instance pairLe_decidable : DecidableRel pairLe := fun a b => by
  unfold pairLe
  infer_instance

/-- Embedding of `build_cache_hierarchy` (src/unnamed/part_001:108-134):
walk the jump-sets from the largest stride down, attributing a level
whenever a flagged index disappears; if no level was ever attributed the
C++ prints to stderr and calls `exit(1)` — modelled as `Except.error` —
otherwise the levels are sorted and the smallest (L1) is returned. -/
def build_cache_hierarchy (jumps : List (Finset ℕ)) (H : ℕ) : Except String (ℕ × ℕ) :=
  let caches := hierarchyWalk H (jumps.getLastD ∅) jumps.reverse []
  match caches with
  | [] => Except.error "Could not detect cache hierarchy"
  | _ :: _ => Except.ok ((caches.insertionSort pairLe).headD (0, 0))

theorem hierarchyWalk_empty_active :
    ∀ (l : List (Finset ℕ)) (H : ℕ) (caches : List (ℕ × ℕ)),
      hierarchyWalk H ∅ l caches = caches := by
  intro l
  induction l with
  | nil =>
    intro H caches
    rfl
  | cons js rest ih =>
    intro H caches
    rw [hierarchyWalk, Finset.filter_empty, Finset.filter_empty, Finset.sort_empty]
    simp only [List.map_nil, List.append_nil]
    exact ih _ _

theorem getLastD_empty_of_all_empty :
    ∀ (l : List (Finset ℕ)) (d : Finset ℕ),
      (∀ js ∈ l, js = (∅ : Finset ℕ)) → d = ∅ → l.getLastD d = ∅ := by
  intro l
  induction l with
  | nil =>
    intro d _ hd
    exact hd
  | cons a t ih =>
    intro d hmem hd
    rw [List.getLastD_cons]
    exact ih a (fun js hjs => hmem js (List.mem_cons_of_mem _ hjs))
      (hmem a (List.mem_cons_self _ _))

/-- Claim C8: in the hierarchy-reconstruction strategy, if no cache-level
boundary is ever found (no jump-set ever flags an index, so the walk can
never attribute a level), the run aborts with the distinct failed status
(`exit(1)` after printing to stderr, modelled as `Except.error`) — it
never degrades to a low-confidence default value the way the single-probe
strategies do. -/
theorem build_cache_hierarchy_aborts_without_boundary
    (jumps : List (Finset ℕ)) (H : ℕ) (h : ∀ js ∈ jumps, js = (∅ : Finset ℕ)) :
    build_cache_hierarchy jumps H = Except.error "Could not detect cache hierarchy" ∧
    ∀ v, build_cache_hierarchy jumps H ≠ Except.ok v := by
  have hwalk : hierarchyWalk H (jumps.getLastD ∅) jumps.reverse [] = [] := by
    rw [getLastD_empty_of_all_empty jumps ∅ h rfl]
    exact hierarchyWalk_empty_active _ _ _
  constructor
  · unfold build_cache_hierarchy
    rw [hwalk]
  · intro v hv
    unfold build_cache_hierarchy at hv
    rw [hwalk] at hv
    exact Except.noConfusion hv

/-- Witness for C8: a run whose single jump-set is empty aborts. -/
theorem build_cache_hierarchy_aborts_without_boundary_witness :
    build_cache_hierarchy [∅] 32 = Except.error "Could not detect cache hierarchy" ∧
    ∀ v, build_cache_hierarchy [∅] 32 ≠ Except.ok v :=
  build_cache_hierarchy_aborts_without_boundary [∅] 32
    (fun js hjs => by simpa using hjs)
